import Mathlib

/-!
Verification of the governance-document processing pipeline
(`src/governance_analysis/services` and `src/vector_store/services`).

Shallow embedding conventions:
* Python `str.split()` (whitespace tokenization, empty tokens dropped) is
  `pyWords`.
* Python dicts (used as caches, insertion-ordered) are association lists
  `List (K × V)`; `alookup` models `d.get(k)` / `k in d`, `dictInsert`
  models `d[k] = v` (update in place keeps the position, fresh key is
  appended at the end, exactly as CPython dicts behave).
* Wall-clock values (`time.time()`, `datetime.now()`) are explicit `Nat`
  parameters.
* Python floats are modelled as rationals `ℚ`.
* The OpenAI collaborators (extraction / classification / embedding
  functions) are black boxes, passed as explicit function parameters.
* `hash : String → Int` (CPython string hashing) is likewise passed as an
  explicit parameter.
-/

set_option maxRecDepth 8000

/-- Python `text.split()`: walk the characters, accumulate the current
word (reversed), break on whitespace, drop empty tokens. -/
def splitWordsAux : List Char → List Char → List (List Char)
  | [], acc => if acc = [] then [] else [acc.reverse]
  | c :: cs, acc =>
    if c.isWhitespace then
      (if acc = [] then splitWordsAux cs [] else acc.reverse :: splitWordsAux cs [])
    else splitWordsAux cs (c :: acc)

/-- Python `text.split()` on a `String`. -/
def pyWords (s : String) : List String :=
  (splitWordsAux s.data []).map String.mk

/-- Python `' '.join(words)`. -/
def joinWords (ws : List String) : String := String.intercalate " " ws

/-- Association-list lookup, modelling Python `dict.get` / `in`. -/
def alookup {K V : Type} [DecidableEq K] : List (K × V) → K → Option V
  | [], _ => none
  | (k', v) :: t, k => if k = k' then some v else alookup t k

/-- Python `d[k] = v` on an insertion-ordered dict: an existing key keeps
its position, a fresh key is appended at the end. -/
def dictInsert {K V : Type} [DecidableEq K] (d : List (K × V)) (k : K) (v : V) :
    List (K × V) :=
  match alookup d k with
  | some _ => d.map (fun p => if p.1 = k then (k, v) else p)
  | none => d ++ [(k, v)]

/-! ### TextChunker (document_processor.py lines 19-52) -/

/-- One element of the list returned by `TextChunker.split_text`. -/
structure ChunkData where
  text : String
  size : Nat
  start_pos : Nat
  end_pos : Nat
  deriving DecidableEq, Repr

/-- The `while current_position < len(words)` loop of
`TextChunker.split_text`, with explicit fuel (the loop advances
`current_position` by at least 1 per iteration, so `words.length` fuel
suffices).  `current_position = end_position - self.overlap` can be
negative in Python, hence the comparisons are carried out on `Int`
exactly as the source does;
`if current_position >= len(words) - self.overlap: break` and
`if current_position <= chunks[-1]['start_pos']:
   current_position = chunks[-1]['start_pos'] + 1`
are modelled verbatim (the previous chunk's `start_pos` is the
`current` of the present iteration). -/
def splitLoopF (words : List String) (chunkSize overlap : Nat) :
    Nat → Nat → List ChunkData
  | _, 0 => []
  | current, fuel + 1 =>
    if current < words.length then
      let endPos := min (current + chunkSize) words.length
      let chunk : ChunkData :=
        { text := joinWords ((words.drop current).take (endPos - current)),
          size := endPos - current, start_pos := current, end_pos := endPos }
      let nextInt : Int := (endPos : Int) - (overlap : Int)
      if (words.length : Int) - (overlap : Int) ≤ nextInt then
        [chunk]
      else
        if nextInt ≤ (current : Int) then
          chunk :: splitLoopF words chunkSize overlap (current + 1) fuel
        else
          chunk :: splitLoopF words chunkSize overlap nextInt.toNat fuel
    else []

/-- `TextChunker` state: the constructor stores
`self.overlap = min(overlap, chunk_size // 2)`. -/
structure TextChunker where
  chunk_size : Nat
  overlap : Nat

/-- `TextChunker.__init__(chunk_size, overlap)`. -/
def TextChunker.init (chunk_size overlap : Nat) : TextChunker :=
  { chunk_size := chunk_size, overlap := min overlap (chunk_size / 2) }

/-- `TextChunker.split_text`. -/
def TextChunker.split_text (c : TextChunker) (text : String) : List ChunkData :=
  let words := pyWords text
  splitLoopF words c.chunk_size c.overlap 0 words.length

/-! Core facts about the chunking loop. -/

lemma splitLoopF_of_ge (words : List String) (chunkSize overlap fuel current : Nat)
    (h : words.length ≤ current) :
    splitLoopF words chunkSize overlap current fuel = [] := by
  cases fuel with
  | zero => rfl
  | succ n => simp [splitLoopF, Nat.not_lt.mpr h]

/-- Master invariant of the chunking loop: for a positive chunk size and
overlap at most half the chunk size, the loop starting at `current`
produces a non-empty chunk list whose first chunk starts at `current`,
whose last chunk ends exactly at `words.length`, whose successive chunks
have strictly increasing starts overlapping the predecessor
(`next.start_pos ≤ prev.end_pos`), and which covers every word index in
`[current, words.length)`. -/
lemma splitLoopF_spec (words : List String) (chunkSize overlap : Nat)
    (hcs : 1 ≤ chunkSize) (hov : overlap ≤ chunkSize / 2) :
    ∀ fuel current, words.length ≤ current + fuel → current < words.length →
      (splitLoopF words chunkSize overlap current fuel ≠ [] ∧
       (splitLoopF words chunkSize overlap current fuel).head?.map
         ChunkData.start_pos = some current ∧
       (splitLoopF words chunkSize overlap current fuel).getLast?.map
         ChunkData.end_pos = some words.length ∧
       List.Chain' (fun a b => a.start_pos < b.start_pos ∧ b.start_pos ≤ a.end_pos)
         (splitLoopF words chunkSize overlap current fuel) ∧
       (∀ i, current ≤ i → i < words.length →
         ∃ c ∈ splitLoopF words chunkSize overlap current fuel,
           c.start_pos ≤ i ∧ i < c.end_pos)) := by
  have hov' : overlap < chunkSize := lt_of_le_of_lt hov (Nat.div_lt_self ?_ ?_)
  rotate_left
  · omega
  · omega
  intro fuel
  induction fuel with
  | zero => intro current hfuel hcur; omega
  | succ n ih =>
    intro current hfuel hcur
    set endPos := min (current + chunkSize) words.length with hend
    have hend1 : current < endPos := by
      simp only [hend]
      omega
    have hend2 : endPos ≤ words.length := by omega
    by_cases hbreak : (words.length : Int) - (overlap : Int) ≤
        (endPos : Int) - (overlap : Int)
    · -- break: the appended chunk is the last one and ends at words.length
      have hlen : endPos = words.length := by omega
      have heq : splitLoopF words chunkSize overlap current (n + 1) =
          [{ text := joinWords ((words.drop current).take (endPos - current)),
             size := endPos - current, start_pos := current, end_pos := endPos }] := by
        simp only [splitLoopF, if_pos hcur, ← hend, if_pos hbreak]
      refine ⟨by simp [heq], by simp [heq], by simp [heq, hlen], by simp [heq], ?_⟩
      intro i hi1 hi2
      refine ⟨{ text := joinWords ((words.drop current).take (endPos - current)),
                size := endPos - current, start_pos := current, end_pos := endPos },
              by simp [heq], hi1, by simpa [hlen] using hi2⟩
    · -- continue: the next start is endPos - overlap (the forced-progress
      -- branch is dead when overlap < chunkSize)
      have hend3 : endPos < words.length := by omega
      have hend4 : endPos = current + chunkSize := by omega
      have hforce : ¬ ((endPos : Int) - (overlap : Int) ≤ (current : Int)) := by
        omega
      have hnext : ((endPos : Int) - (overlap : Int)).toNat = endPos - overlap := by
        omega
      have heq : splitLoopF words chunkSize overlap current (n + 1) =
          { text := joinWords ((words.drop current).take (endPos - current)),
            size := endPos - current, start_pos := current, end_pos := endPos } ::
          splitLoopF words chunkSize overlap (endPos - overlap) n := by
        simp only [splitLoopF, if_pos hcur, ← hend, if_neg hbreak, if_neg hforce, hnext]
      have hlt : current < endPos - overlap := by omega
      have hcur' : endPos - overlap < words.length := by omega
      have hfuel' : words.length ≤ (endPos - overlap) + n := by omega
      obtain ⟨ihne, ihhead, ihlast, ihchain, ihcover⟩ := ih (endPos - overlap) hfuel' hcur'
      set rest := splitLoopF words chunkSize overlap (endPos - overlap) n with hrest
      obtain ⟨r0, rs, hr⟩ : ∃ r0 rs, rest = r0 :: rs := by
        cases h : rest with
        | nil => exact absurd h ihne
        | cons a l => exact ⟨a, l, rfl⟩
      have hr0 : r0.start_pos = endPos - overlap := by
        rw [hr] at ihhead
        simp at ihhead
        omega
      refine ⟨by simp [heq], by simp [heq], ?_, ?_, ?_⟩
      · rw [heq, hr]
        rw [hr] at ihlast
        rw [List.getLast?_cons_cons]
        exact ihlast
      · rw [heq, hr]
        rw [hr] at ihchain
        refine List.Chain'.cons ⟨?_, ?_⟩ ihchain
        · simp only [hr0]; omega
        · simp only [hr0]; omega
      · intro i hi1 hi2
        by_cases hc : i < endPos
        · refine ⟨{ text := joinWords ((words.drop current).take (endPos - current)),
                    size := endPos - current, start_pos := current, end_pos := endPos },
                  by rw [heq]; exact List.mem_cons_self _ _, hi1, hc⟩
        · obtain ⟨c, hc1, hc2⟩ := ihcover i (by omega) hi2
          exact ⟨c, by rw [heq]; exact List.mem_cons_of_mem _ hc1, hc2⟩

/-- Specialization of the master invariant to `TextChunker.split_text`. -/
lemma split_text_spec (chunk_size overlap : Nat) (hcs : 1 ≤ chunk_size)
    (text : String) (hne : pyWords text ≠ []) :
    ((TextChunker.init chunk_size overlap).split_text text ≠ [] ∧
     ((TextChunker.init chunk_size overlap).split_text text).head?.map
       ChunkData.start_pos = some 0 ∧
     ((TextChunker.init chunk_size overlap).split_text text).getLast?.map
       ChunkData.end_pos = some (pyWords text).length ∧
     List.Chain' (fun a b => a.start_pos < b.start_pos ∧ b.start_pos ≤ a.end_pos)
       ((TextChunker.init chunk_size overlap).split_text text) ∧
     (∀ i, i < (pyWords text).length →
       ∃ c ∈ (TextChunker.init chunk_size overlap).split_text text,
         c.start_pos ≤ i ∧ i < c.end_pos)) := by
  have hlen : 0 < (pyWords text).length := List.length_pos.mpr hne
  have h := splitLoopF_spec (pyWords text) chunk_size (min overlap (chunk_size / 2))
    hcs (min_le_right _ _) (pyWords text).length 0 (by omega) hlen
  obtain ⟨h1, h2, h3, h4, h5⟩ := h
  exact ⟨h1, h2, h3, h4, fun i hi => h5 i (Nat.zero_le i) hi⟩

lemma split_text_empty (chunk_size overlap : Nat) (text : String)
    (h : pyWords text = []) :
    (TextChunker.init chunk_size overlap).split_text text = [] := by
  unfold TextChunker.split_text
  rw [h]
  rfl

/-- C1: with `chunk_size=1000`, `overlap=200`, chunk start offsets strictly
increase and the last chunk ends at the total word count (shown for any
2500-word text and, generally, for any text with at least one word);
the empty tokenization yields zero chunks. -/
theorem C1_chunker_offsets_and_tail :
    (∀ text : String, (pyWords text).length = 2500 →
      List.Chain' (fun a b => a.start_pos < b.start_pos)
        ((TextChunker.init 1000 200).split_text text) ∧
      ((TextChunker.init 1000 200).split_text text).getLast?.map
        ChunkData.end_pos = some 2500) ∧
    (∀ text : String, pyWords text ≠ [] →
      ((TextChunker.init 1000 200).split_text text).getLast?.map
        ChunkData.end_pos = some (pyWords text).length) ∧
    (∀ text : String, pyWords text = [] →
      (TextChunker.init 1000 200).split_text text = []) := by
  refine ⟨?_, ?_, ?_⟩
  · intro text hlen
    have hne : pyWords text ≠ [] := by
      intro h; rw [h] at hlen; simp at hlen
    obtain ⟨-, -, h3, h4, -⟩ := split_text_spec 1000 200 (by omega) text hne
    exact ⟨h4.imp (fun a b hab => hab.1), by rw [h3, hlen]⟩
  · intro text hne
    obtain ⟨-, -, h3, -, -⟩ := split_text_spec 1000 200 (by omega) text hne
    exact h3
  · intro text h
    exact split_text_empty 1000 200 text h

/-- The word list of `wRep n` is `n` copies of the word `"w"`. -/
def wRep : Nat → List Char
  | 0 => []
  | n + 1 => 'w' :: ' ' :: wRep n

lemma splitWordsAux_wRep (n : Nat) :
    splitWordsAux (wRep n) [] = List.replicate n ['w'] := by
  have h1 : ('w').isWhitespace = false := rfl
  have h2 : (' ').isWhitespace = true := rfl
  induction n with
  | zero => rfl
  | succ n ih => simp [wRep, splitWordsAux, h1, h2, ih, List.replicate_succ]

lemma pyWords_wRep (n : Nat) :
    pyWords (String.mk (wRep n)) = List.replicate n "w" := by
  unfold pyWords
  show (splitWordsAux (wRep n) []).map String.mk = _
  rw [splitWordsAux_wRep]
  simp [List.map_replicate]

/-- Witness for C1 at concrete inputs: a 2500-word text, the two-word text
`"a b"`, and the empty text. -/
theorem C1_chunker_offsets_and_tail_witness :
    ((pyWords (String.mk (wRep 2500))).length = 2500 ∧
      List.Chain' (fun a b => a.start_pos < b.start_pos)
        ((TextChunker.init 1000 200).split_text (String.mk (wRep 2500))) ∧
      ((TextChunker.init 1000 200).split_text (String.mk (wRep 2500))).getLast?.map
        ChunkData.end_pos = some 2500) ∧
    (pyWords "a b" ≠ [] ∧
      ((TextChunker.init 1000 200).split_text "a b").getLast?.map
        ChunkData.end_pos = some (pyWords "a b").length) ∧
    (pyWords "" = [] ∧ (TextChunker.init 1000 200).split_text "" = []) := by
  have hlen : (pyWords (String.mk (wRep 2500))).length = 2500 := by
    rw [pyWords_wRep]; simp
  have hne : pyWords "a b" ≠ [] := by decide
  have hemp : pyWords "" = [] := by decide
  refine ⟨⟨hlen, ?_⟩, ⟨hne, ?_⟩, ⟨hemp, ?_⟩⟩
  · exact C1_chunker_offsets_and_tail.1 (String.mk (wRep 2500)) hlen
  · exact C1_chunker_offsets_and_tail.2.1 "a b" hne
  · exact C1_chunker_offsets_and_tail.2.2 "" hemp

/-- C10: for any text and any `chunk_size ≥ 1` (the constructor caps
`overlap` at `chunk_size / 2`), each chunk after the first starts no later
than the previous chunk ends, and every word index of the tokenized input
is covered by some chunk. -/
theorem C10_chunk_overlap_coverage (text : String) (chunk_size overlap : Nat)
    (hcs : 1 ≤ chunk_size) :
    List.Chain' (fun a b => b.start_pos ≤ a.end_pos)
      ((TextChunker.init chunk_size overlap).split_text text) ∧
    ∀ i, i < (pyWords text).length →
      ∃ c ∈ (TextChunker.init chunk_size overlap).split_text text,
        c.start_pos ≤ i ∧ i < c.end_pos := by
  by_cases hne : pyWords text = []
  · rw [split_text_empty chunk_size overlap text hne, hne]
    exact ⟨List.chain'_nil, by simp⟩
  · obtain ⟨-, -, -, h4, h5⟩ := split_text_spec chunk_size overlap hcs text hne
    exact ⟨h4.imp (fun a b hab => hab.2), h5⟩

/-- Witness for C10 at `chunk_size = 3`, `overlap = 2`, text `"a b c d e"`. -/
theorem C10_chunk_overlap_coverage_witness :
    (1 ≤ 3 ∧
      (List.Chain' (fun a b => b.start_pos ≤ a.end_pos)
        ((TextChunker.init 3 2).split_text "a b c d e") ∧
      ∀ i, i < (pyWords "a b c d e").length →
        ∃ c ∈ (TextChunker.init 3 2).split_text "a b c d e",
          c.start_pos ≤ i ∧ i < c.end_pos)) :=
  ⟨by omega, C10_chunk_overlap_coverage "a b c d e" 3 2 (by omega)⟩

/-! ### BestPracticeExtractor confidence scoring
(best_practice_extractor.py lines 56-84 and 226-256) -/

/-- Naive substring search on lists, modelling Python `pat in s`. -/
def listContains {α : Type} [DecidableEq α] : List α → List α → Bool
  | _, [] => true
  | [], _ :: _ => false
  | a :: as, p :: ps => (p :: ps).isPrefixOf (a :: as) || listContains as (p :: ps)

/-- Python `pat in s` on strings. -/
def strContainsSub (s pat : String) : Bool := listContains s.data pat.data

/-- `self.categories` of `BestPracticeExtractor.__init__`. -/
def bpeCategories : List (String × List String) :=
  [("best_practices",
    ["Strong Financial Management",
     "Transparent Governance",
     "Risk Management & Compliance",
     "Strategic Objectives",
     "Continuous Improvement",
     "Effective Safeguarding",
     "Ethical Culture & Accountability",
     "Diversity, Equity, Inclusion"]),
   ("concerns",
    ["Financial Instability",
     "Weak Governance Structures",
     "Non-Compliance in Risk & Safeguarding",
     "Unclear Objectives",
     "Resistance to Feedback",
     "Insufficient Safeguarding",
     "Ethical Concerns",
     "Lack of Inclusivity"])]

/-- One element of the model response's `practices` list, as consumed via
`practice_data.get(...)`: every field may be absent. -/
structure PracticeData where
  practice : Option String
  category : Option String
  context : Option String
  impact : Option String
  evidence : Option String
  is_best_practice : Option Bool
  deriving DecidableEq, Repr

/-- Python truthiness of `practice_data.get(f)` for a string field:
falsy iff missing or the empty string. -/
def pyTruthy : Option String → Bool
  | none => false
  | some s => s != ""

/-- The category-alignment test of `_calculate_confidence_score`:
`any(cat.lower() in category.lower() for cats in self.categories.values()
for cat in cats)`. -/
def bpeCategoryMatch (category : String) : Bool :=
  bpeCategories.any (fun cats =>
    cats.2.any (fun cat => strContainsSub category.toLower cat.toLower))


/-- `BestPracticeExtractor._calculate_confidence_score`.  Python floats are
rationals here; the clamp `max(0.0, min(1.0, score))` is written with the
corresponding rational numerals. -/
def calculate_confidence_score (practice_data : PracticeData) (word_count : Nat) : ℚ :=
  let score : ℚ := 1
  let score := if word_count < 50 then score * 0.8
    else if 500 < word_count then score * 0.9 else score
  let evidence := practice_data.evidence.getD ""
  let score := if evidence != "" && decide (10 < (pyWords evidence).length)
    then score * 1.1 else score
  let category := practice_data.category.getD ""
  let score := if bpeCategoryMatch category then score * 1.1 else score
  let missing_fields :=
    ([practice_data.practice, practice_data.category, practice_data.context,
      practice_data.impact, practice_data.evidence]).filter (fun o => !(pyTruthy o))
  let score := if missing_fields != [] then score * 0.7 else score
  max 0 (min 1 score)

lemma pyTruthy_getD (o : Option String) : pyTruthy o = (o.getD "" != "") := by
  cases o <;> rfl

lemma missing_fields_nil_iff (pd : PracticeData) :
    (([pd.practice, pd.category, pd.context, pd.impact, pd.evidence]).filter
      (fun o => !(pyTruthy o)) = []) ↔
    (pyTruthy pd.practice ∧ pyTruthy pd.category ∧ pyTruthy pd.context ∧
     pyTruthy pd.impact ∧ pyTruthy pd.evidence) := by
  simp [List.filter_eq_nil_iff]

/-- C4: the confidence score is the clamp to `[0,1]` of the product of the
independent adjustment factors, and always lies in `[0,1]`; in particular
the all-fields-missing input scores in `[0,1]`. -/
theorem C4_confidence_score_product_and_bounds (pd : PracticeData) (word_count : Nat) :
    (calculate_confidence_score pd word_count =
      max 0 (min 1
        ((if word_count < 50 then (0.8 : ℚ)
            else if 500 < word_count then 0.9 else 1) *
         (if pyTruthy pd.evidence ∧ 10 < (pyWords (pd.evidence.getD "")).length
            then 1.1 else 1) *
         (if bpeCategoryMatch (pd.category.getD "") then 1.1 else 1) *
         (if pyTruthy pd.practice ∧ pyTruthy pd.category ∧ pyTruthy pd.context ∧
             pyTruthy pd.impact ∧ pyTruthy pd.evidence then 1 else 0.7)))) ∧
    (0 ≤ calculate_confidence_score pd word_count ∧
     calculate_confidence_score pd word_count ≤ 1) ∧
    (0 ≤ calculate_confidence_score ⟨none, none, none, none, none, none⟩ word_count ∧
     calculate_confidence_score ⟨none, none, none, none, none, none⟩ word_count ≤ 1) := by
  have hbounds : ∀ q : ℚ, 0 ≤ max 0 (min 1 q) ∧ max 0 (min 1 q) ≤ 1 := by
    intro q
    exact ⟨le_max_left 0 (min 1 q), max_le (by norm_num) (min_le_left 1 q)⟩
  have hEiff : (((pd.evidence.getD "" != "") &&
      decide (10 < (pyWords (pd.evidence.getD "")).length)) = true) ↔
      (pyTruthy pd.evidence ∧ 10 < (pyWords (pd.evidence.getD "")).length) := by
    rw [pyTruthy_getD]
    simp [Bool.and_eq_true]
  have hMiff : ((List.filter (fun o => !(pyTruthy o)) [pd.practice, pd.category,
      pd.context, pd.impact, pd.evidence] != []) = true) ↔
      ¬(pyTruthy pd.practice ∧ pyTruthy pd.category ∧ pyTruthy pd.context ∧
        pyTruthy pd.impact ∧ pyTruthy pd.evidence) := by
    rw [← missing_fields_nil_iff]
    simp [bne_iff_ne]
  refine ⟨?_, hbounds _, hbounds _⟩
  simp only [calculate_confidence_score, hEiff, hMiff, ite_not]
  split_ifs <;> norm_num

/-! ### BestPracticeExtractor.process_chunk
(best_practice_extractor.py lines 13-40, 87-224) -/

/-- Module-level `GOVERNANCE_CONTEXT` of best_practice_extractor.py
(apostrophes written `\x27`). -/
def governanceContextBPE : String :=
  "\nYou are the Sport Wales goverance team partner reviewer. Your goal is to will be review and anaylye the partner\x27s performance.\nThe Sport Wales Governance Team is central to upholding the integrity, effectiveness, \nand ethical standards of Sport Wales\x27 funded partnerships and organizations known as partners. The team \nensures funded partners operate under robust governance frameworks that align with Sport \nWales\x27 values of accountability, transparency, and continuous improvement. Goal is to review our partners performance.\n\nbest_practices\x27\n                \"Strong Financial Management\",\n                \"Transparent Governance\",\n                \"Risk Management & Compliance\",\n                \"Strategic Objectives\",\n                \"Continuous Improvement\",\n                \"Effective Safeguarding\",\n                \"Ethical Culture & Accountability\",\n                \"Diversity, Equity, Inclusion\"\n\n#########\n\x27concerns\x27\n                \"Financial Instability\",\n                \"Weak Governance Structures\",\n                \"Non-Compliance in Risk & Safeguarding\",\n                \"Unclear Objectives\",\n                \"Resistance to Feedback\",\n                \"Insufficient Safeguarding\",\n                \"Ethical Concerns\",\n                \"Lack of Inclusivity\"\n            \n"

/-- The dict produced by `DocumentSummarizer.generate_summary`. -/
structure DocumentSummary where
  summary : String
  sport_name : String
  deriving DecidableEq, Repr

/-- `BestPracticeExtractor._construct_prompt` (the analysis f-string;
literal JSON braces written `\x7b`/`\x7d`, apostrophes `\x27`). -/
def bpeConstructPrompt (text : String) (summary : DocumentSummary) : String :=
  "\n        # Context: " ++ governanceContextBPE ++ " \n####\n        \n        # Partner Name: " ++
  summary.sport_name ++ "\n        Partner " ++ summary.sport_name ++ "  Background:\n        " ++
  summary.summary ++ "\n\n\n        Below is a chunck of the text document from the Partner Report for " ++
  summary.sport_name ++ " partner. \n        Document Text: " ++ text ++
  "\n\n        \n####\n        Task: Analyze the text for governance bestpractices or/and concerns.\n\n        First, determine if the Document Text contains significant governance content that is relevant to the governance team and meets the criteria for: Best Practices or a Concerns\n        \n        Must of the Document test wont contain any Best Practices or Concerns, its okay if it doesnt we will move on to the next document text \n        If the  Doucment Text doesn\x27t contain significant governance content, respond with:\n        \x7b\"criteria_met\": false, \"practices\": []\x7d\n\n\n        If governance criteria for Best Practices or a Concerns found is met in the Document Text:\n        1. Identify it as a best practices and concerns, best practice is \"true\", concern is \"false\"\n        2. Categorize each finding into one of the predefined categories, \n        3. Provide specific evidence from the text\n        4. Assess the impact\n\n        For each practice or concern identified, provide:\n        \x7b\n            \"practice\": \"The specific practice or concern\",\n            \"category\": \"One of the predefined categories\",\n            \"context\": \"Relevant surrounding context\",\n            \"impact\": \"Expected impact or implications\",\n            \"is_best_practice\": true/false,\n            \"evidence\": \"Direct evidence from text\"\n        \x7d\n        \n####\n\n        Always Return your answer in the json format below: if criteria not met, return \"criteria_met\": False and practices/concerns as empty []\n        \x7b\n            \"criteria_met\": True/False,\n            \"practices\": [list of practices/concerns],\n            \"dominant_categories\": [\"main categories found\"]\n        \x7d\n        "

/-- A `DocumentChunk` row (the fields `process_chunk` reads). -/
structure Chunk where
  text : String
  word_count : Nat
  page_number : Nat
  position : Nat
  document_id : Nat
  deriving DecidableEq, Repr

/-- A `BestPractice` row.  `analysis_time` and `embedding` are filled in
later by the theme analyzer / vector store. -/
structure Finding where
  id : Nat
  document_id : Nat
  text : String
  context : String
  impact : String
  page_number : Nat
  extraction_time : Nat
  analysis_time : Nat
  confidence_score : ℚ
  keywords : List String
  themes : List String
  is_best_practice : Bool
  embedding : Option (List ℚ)
  deriving DecidableEq, Repr

/-- The parsed model response of `analyze_governance_content`
(`ChunkAnalysisSchema`). -/
structure ChunkAnalysis where
  criteria_met : Bool
  practices : List PracticeData
  dominant_categories : List String
  deriving DecidableEq, Repr

/-- The `BestPractice.objects.create(...)` call in `process_chunk`:
`keywords = evidence.split()`, `themes = [category]`,
`is_best_practice` defaults to `True`.  `idv` models the row id the
database assigns. -/
def mkBestPractice (idv : Nat) (chunk : Chunk) (extraction_time : Nat)
    (pd : PracticeData) : Finding :=
  { id := idv
    document_id := chunk.document_id
    text := pd.practice.getD ""
    context := pd.context.getD ""
    impact := pd.impact.getD ""
    page_number := chunk.page_number
    extraction_time := extraction_time
    analysis_time := 0
    confidence_score := calculate_confidence_score pd chunk.word_count
    keywords := pyWords (pd.evidence.getD "")
    themes := [pd.category.getD ""]
    is_best_practice := pd.is_best_practice.getD true
    embedding := none }

/-- Python `max(f :: rest, key=lambda p: p.confidence_score)`: the first
element of maximal confidence. -/
def pyMaxByConfidence (f : Finding) (rest : List Finding) : Finding :=
  rest.foldl (fun acc p => if acc.confidence_score < p.confidence_score then p else acc) f

/-- Return value of `process_chunk`: the cached single practice on a cache
hit, a non-empty list of created practices, or `None`. -/
inductive PCResult where
  | cacheHit (f : Finding)
  | found (fs : List Finding)
  | noResult
  deriving DecidableEq, Repr

/-- The extractor's `self._cache` (a plain dict, keyed by `hash(text)`). -/
structure BPEState where
  cache : List (Int × Finding)
  deriving DecidableEq, Repr

/-- `BestPracticeExtractor.process_chunk`.  `hash` is CPython's string
hash, `llm` the black-box model call (prompt to parsed response),
`extraction_time` the elapsed wall-clock value, `idBase` the next database
row id.  Cache hit returns the cached practice unchanged; `criteria_met =
False` returns `None`; otherwise one `BestPractice` per practice dict is
created and the most confident one is cached under the chunk-text hash. -/
def BestPracticeExtractor.process_chunk
    (hash : String → Int) (llm : String → ChunkAnalysis)
    (extraction_time idBase : Nat)
    (s : BPEState) (chunk : Chunk) (summary : DocumentSummary) :
    PCResult × BPEState :=
  let cache_key := hash chunk.text
  match alookup s.cache cache_key with
  | some f => (.cacheHit f, s)
  | none =>
    let analysis := llm (bpeConstructPrompt chunk.text summary)
    if analysis.criteria_met = false then (.noResult, s)
    else
      let practices := analysis.practices.enum.map
        (fun p => mkBestPractice (idBase + p.1) chunk extraction_time p.2)
      match practices with
      | [] => (.noResult, s)
      | f :: rest =>
        (.found (f :: rest),
         ⟨dictInsert s.cache cache_key (pyMaxByConfidence f rest)⟩)

/-! Dict-model helper lemmas. -/

lemma alookup_cons {K V : Type} [DecidableEq K] (k k' : K) (w : V) (t : List (K × V)) :
    alookup ((k', w) :: t) k = if k = k' then some w else alookup t k := rfl

lemma alookup_append_of_none {K V : Type} [DecidableEq K]
    (d : List (K × V)) (k : K) (v : V) (h : alookup d k = none) :
    alookup (d ++ [(k, v)]) k = some v := by
  induction d with
  | nil => simp [alookup]
  | cons p t ih =>
    obtain ⟨k', w'⟩ := p
    rw [alookup_cons] at h
    by_cases hk : k = k'
    · rw [if_pos hk] at h; exact absurd h (by simp)
    · rw [if_neg hk] at h
      rw [List.cons_append, alookup_cons, if_neg hk]
      exact ih h

lemma alookup_map_update {K V : Type} [DecidableEq K]
    (d : List (K × V)) (k : K) (v w : V) (h : alookup d k = some w) :
    alookup (d.map (fun p => if p.1 = k then (k, v) else p)) k = some v := by
  induction d with
  | nil => simp [alookup] at h
  | cons p t ih =>
    obtain ⟨k', w'⟩ := p
    rw [alookup_cons] at h
    by_cases hk : k = k'
    · subst hk
      have hfst : ((k, w') : K × V).1 = k := rfl
      rw [List.map_cons, if_pos hfst, alookup_cons, if_pos rfl]
    · rw [if_neg hk] at h
      rw [List.map_cons]
      have hne : ¬ ((k', w').1 = k) := fun hh => hk hh.symm
      rw [if_neg hne, alookup_cons, if_neg hk]
      exact ih h

lemma dictInsert_of_none {K V : Type} [DecidableEq K]
    (d : List (K × V)) (k : K) (v : V) (h : alookup d k = none) :
    dictInsert d k v = d ++ [(k, v)] := by
  unfold dictInsert
  rw [h]

lemma alookup_dictInsert_self {K V : Type} [DecidableEq K]
    (d : List (K × V)) (k : K) (v : V) :
    alookup (dictInsert d k v) k = some v := by
  cases h : alookup d k with
  | none => rw [dictInsert_of_none d k v h]; exact alookup_append_of_none d k v h
  | some w =>
    unfold dictInsert
    rw [h]
    exact alookup_map_update d k v w h

lemma alookup_eq_none_of_forall {K V : Type} [DecidableEq K]
    (l : List (K × V)) (k : K) (h : ∀ p ∈ l, p.1 ≠ k) :
    alookup l k = none := by
  induction l with
  | nil => rfl
  | cons p t ih =>
    obtain ⟨k', w'⟩ := p
    rw [alookup_cons, if_neg (fun hk => h (k', w') (List.mem_cons_self _ _) hk.symm)]
    exact ih (fun q hq => h q (List.mem_cons_of_mem _ hq))

lemma alookup_isSome_of_mem {K V : Type} [DecidableEq K]
    (l : List (K × V)) (k : K) (h : ∃ p ∈ l, p.1 = k) :
    (alookup l k).isSome := by
  induction l with
  | nil => simp at h
  | cons p t ih =>
    obtain ⟨k', w'⟩ := p
    rw [alookup_cons]
    by_cases hk : k = k'
    · simp [hk]
    · rw [if_neg hk]
      refine ih ?_
      obtain ⟨q, hq, hq1⟩ := h
      rcases List.mem_cons.mp hq with h1 | h1
      · exact absurd (hq1.symm.trans (congrArg Prod.fst h1)) hk
      · exact ⟨q, h1, hq1⟩

/-! Facts about the Python `max(..., key=confidence_score)` model. -/

lemma pyMaxByConfidence_cons (f p : Finding) (rest : List Finding) :
    pyMaxByConfidence f (p :: rest) =
      pyMaxByConfidence (if f.confidence_score < p.confidence_score then p else f) rest := rfl

lemma pyMaxByConfidence_mem (f : Finding) (rest : List Finding) :
    pyMaxByConfidence f rest ∈ f :: rest := by
  induction rest generalizing f with
  | nil => simp [pyMaxByConfidence]
  | cons p t ih =>
    rw [pyMaxByConfidence_cons]
    rcases List.mem_cons.mp (ih (if f.confidence_score < p.confidence_score then p else f)) with h | h
    · rw [h]
      split_ifs
      · exact List.mem_cons_of_mem _ (List.mem_cons_self _ _)
      · exact List.mem_cons_self _ _
    · exact List.mem_cons_of_mem _ (List.mem_cons_of_mem _ h)

lemma pyMaxByConfidence_le (f : Finding) (rest : List Finding) :
    ∀ g ∈ f :: rest, g.confidence_score ≤ (pyMaxByConfidence f rest).confidence_score := by
  induction rest generalizing f with
  | nil => intro g hg; rcases List.mem_cons.mp hg with h | h
           · rw [h]; rfl
           · simp at h
  | cons p t ih =>
    intro g hg
    rw [pyMaxByConfidence_cons]
    have hmax : f.confidence_score ≤
        (if f.confidence_score < p.confidence_score then p else f).confidence_score ∧
        p.confidence_score ≤
        (if f.confidence_score < p.confidence_score then p else f).confidence_score := by
      split_ifs with hc
      · exact ⟨le_of_lt hc, le_refl _⟩
      · exact ⟨le_refl _, le_of_not_lt hc⟩
    rcases List.mem_cons.mp hg with h | h
    · calc g.confidence_score
          ≤ (if f.confidence_score < p.confidence_score then p else f).confidence_score := by
            rw [h]; exact hmax.1
        _ ≤ _ := ih _ _ (List.mem_cons_self _ _)
    rcases List.mem_cons.mp h with h2 | h2
    · calc g.confidence_score
          ≤ (if f.confidence_score < p.confidence_score then p else f).confidence_score := by
            rw [h2]; exact hmax.2
        _ ≤ _ := ih _ _ (List.mem_cons_self _ _)
    · exact ih _ g (List.mem_cons_of_mem _ h2)

/-! Behavior of `process_chunk` in each of its three outcomes. -/

lemma process_chunk_hit (hash : String → Int) (llm : String → ChunkAnalysis)
    (extraction_time idBase : Nat) (s : BPEState) (chunk : Chunk)
    (summary : DocumentSummary) (f : Finding)
    (hhit : alookup s.cache (hash chunk.text) = some f) :
    BestPracticeExtractor.process_chunk hash llm extraction_time idBase s
      chunk summary = (.cacheHit f, s) := by
  simp [BestPracticeExtractor.process_chunk, hhit]

lemma process_chunk_no_criteria (hash : String → Int) (llm : String → ChunkAnalysis)
    (extraction_time idBase : Nat) (s : BPEState) (chunk : Chunk)
    (summary : DocumentSummary)
    (hmiss : alookup s.cache (hash chunk.text) = none)
    (hcrit : (llm (bpeConstructPrompt chunk.text summary)).criteria_met = false) :
    BestPracticeExtractor.process_chunk hash llm extraction_time idBase s
      chunk summary = (.noResult, s) := by
  simp [BestPracticeExtractor.process_chunk, hmiss, hcrit]

lemma process_chunk_found (hash : String → Int) (llm : String → ChunkAnalysis)
    (extraction_time idBase : Nat) (s : BPEState) (chunk : Chunk)
    (summary : DocumentSummary) (f : Finding) (rest : List Finding)
    (hmiss : alookup s.cache (hash chunk.text) = none)
    (hcrit : (llm (bpeConstructPrompt chunk.text summary)).criteria_met = true)
    (hfr : (llm (bpeConstructPrompt chunk.text summary)).practices.enum.map
        (fun p => mkBestPractice (idBase + p.1) chunk extraction_time p.2) = f :: rest) :
    BestPracticeExtractor.process_chunk hash llm extraction_time idBase s
      chunk summary =
      (.found (f :: rest),
       ⟨dictInsert s.cache (hash chunk.text) (pyMaxByConfidence f rest)⟩) := by
  simp [BestPracticeExtractor.process_chunk, hmiss, hcrit, hfr]

/-- C7: `process_chunk` returns `None` (no findings) when the model reports
`criteria_met = False`; a chunk whose text hashes to a cached key
short-circuits to the cached practice without consulting the model; and
after a successful extraction the cached entry is the highest-confidence
finding of that chunk, returned verbatim on a later call with identical
chunk text (whatever the later model behavior). -/
theorem C7_process_chunk_outcomes :
    (∀ (hash : String → Int) (llm : String → ChunkAnalysis)
       (extraction_time idBase : Nat) (s : BPEState) (chunk : Chunk)
       (summary : DocumentSummary),
       alookup s.cache (hash chunk.text) = none →
       (llm (bpeConstructPrompt chunk.text summary)).criteria_met = false →
       BestPracticeExtractor.process_chunk hash llm extraction_time idBase s
         chunk summary = (.noResult, s)) ∧
    (∀ (hash : String → Int) (llm : String → ChunkAnalysis)
       (extraction_time idBase : Nat) (s : BPEState) (chunk : Chunk)
       (summary : DocumentSummary) (f : Finding),
       alookup s.cache (hash chunk.text) = some f →
       BestPracticeExtractor.process_chunk hash llm extraction_time idBase s
         chunk summary = (.cacheHit f, s)) ∧
    (∀ (hash : String → Int) (llm : String → ChunkAnalysis)
       (extraction_time idBase : Nat) (s : BPEState) (chunk : Chunk)
       (summary : DocumentSummary) (f : Finding) (rest : List Finding),
       alookup s.cache (hash chunk.text) = none →
       (llm (bpeConstructPrompt chunk.text summary)).criteria_met = true →
       (llm (bpeConstructPrompt chunk.text summary)).practices.enum.map
         (fun p => mkBestPractice (idBase + p.1) chunk extraction_time p.2) = f :: rest →
       (BestPracticeExtractor.process_chunk hash llm extraction_time idBase s
          chunk summary).1 = .found (f :: rest) ∧
       pyMaxByConfidence f rest ∈ f :: rest ∧
       (∀ g ∈ f :: rest,
         g.confidence_score ≤ (pyMaxByConfidence f rest).confidence_score) ∧
       (∀ (llm2 : String → ChunkAnalysis) (et2 idB2 : Nat) (chunk2 : Chunk)
          (summary2 : DocumentSummary), chunk2.text = chunk.text →
          BestPracticeExtractor.process_chunk hash llm2 et2 idB2
            (BestPracticeExtractor.process_chunk hash llm extraction_time idBase s
              chunk summary).2 chunk2 summary2 =
          (.cacheHit (pyMaxByConfidence f rest),
           (BestPracticeExtractor.process_chunk hash llm extraction_time idBase s
             chunk summary).2))) := by
  refine ⟨process_chunk_no_criteria, process_chunk_hit, ?_⟩
  intro hash llm extraction_time idBase s chunk summary f rest hmiss hcrit hfr
  have heq := process_chunk_found hash llm extraction_time idBase s chunk summary
    f rest hmiss hcrit hfr
  refine ⟨by rw [heq], pyMaxByConfidence_mem f rest, pyMaxByConfidence_le f rest, ?_⟩
  intro llm2 et2 idB2 chunk2 summary2 htext
  rw [heq]
  exact process_chunk_hit hash llm2 et2 idB2 _ chunk2 summary2 _
    (by rw [htext]; exact alookup_dictInsert_self _ _ _)

/-- Concrete data for the C7 witness. -/
def pdSample : PracticeData :=
  { practice := some "Board reviews finances quarterly"
    category := some "Strong Financial Management"
    context := some "finance section"
    impact := some "stability"
    evidence := some "the board reviews its finances every quarter"
    is_best_practice := some true }

def chunkSample : Chunk :=
  { text := "governance text", word_count := 100, page_number := 1,
    position := 0, document_id := 7 }

def summarySample : DocumentSummary :=
  { summary := "a sports partner", sport_name := "Hockey Wales" }

def findingSample : Finding :=
  { id := 3, document_id := 7, text := "t", context := "c", impact := "i",
    page_number := 1, extraction_time := 0, analysis_time := 0,
    confidence_score := 1, keywords := [], themes := ["Transparent Governance"],
    is_best_practice := true, embedding := none }

/-- Witness for C7: the three outcomes at concrete inputs (a model stub
that reports criteria unmet, a pre-populated cache, and a model stub that
returns one practice). -/
theorem C7_process_chunk_outcomes_witness :
    (alookup (BPEState.mk []).cache ((fun _ => (0 : Int)) chunkSample.text) = none ∧
     ((fun _ => ChunkAnalysis.mk false [] [])
        (bpeConstructPrompt chunkSample.text summarySample)).criteria_met = false ∧
     BestPracticeExtractor.process_chunk (fun _ => (0 : Int))
       (fun _ => ChunkAnalysis.mk false [] []) 0 0 ⟨[]⟩ chunkSample summarySample =
       (.noResult, ⟨[]⟩)) ∧
    (alookup (BPEState.mk [((0 : Int), findingSample)]).cache
       ((fun _ => (0 : Int)) chunkSample.text) = some findingSample ∧
     BestPracticeExtractor.process_chunk (fun _ => (0 : Int))
       (fun _ => ChunkAnalysis.mk false [] []) 0 0 ⟨[((0 : Int), findingSample)]⟩
       chunkSample summarySample = (.cacheHit findingSample, ⟨[((0 : Int), findingSample)]⟩)) ∧
    (((fun _ => ChunkAnalysis.mk true [pdSample] [])
        (bpeConstructPrompt chunkSample.text summarySample)).criteria_met = true ∧
     (BestPracticeExtractor.process_chunk (fun _ => (0 : Int))
        (fun _ => ChunkAnalysis.mk true [pdSample] []) 0 0 ⟨[]⟩ chunkSample
        summarySample).1 =
       .found [mkBestPractice 0 chunkSample 0 pdSample]) := by
  have h1 : alookup (BPEState.mk []).cache ((fun _ => (0 : Int)) chunkSample.text)
      = none := rfl
  have h2 : ((fun _ => ChunkAnalysis.mk false [] [])
      (bpeConstructPrompt chunkSample.text summarySample)).criteria_met = false := rfl
  have h3 : alookup (BPEState.mk [((0 : Int), findingSample)]).cache
      ((fun _ => (0 : Int)) chunkSample.text) = some findingSample := rfl
  have h4 : ((fun _ => ChunkAnalysis.mk true [pdSample] [])
      (bpeConstructPrompt chunkSample.text summarySample)).criteria_met = true := rfl
  have h5 : ((fun _ => ChunkAnalysis.mk true [pdSample] [])
        (bpeConstructPrompt chunkSample.text summarySample)).practices.enum.map
      (fun p => mkBestPractice (0 + p.1) chunkSample 0 p.2) =
      mkBestPractice 0 chunkSample 0 pdSample :: [] := rfl
  refine ⟨⟨h1, h2, ?_⟩, ⟨h3, ?_⟩, ⟨h4, ?_⟩⟩
  · exact C7_process_chunk_outcomes.1 _ _ 0 0 ⟨[]⟩ chunkSample summarySample h1 h2
  · exact C7_process_chunk_outcomes.2.1 _ _ 0 0 _ chunkSample summarySample
      findingSample h3
  · exact (C7_process_chunk_outcomes.2.2 _ _ 0 0 ⟨[]⟩ chunkSample summarySample
      (mkBestPractice 0 chunkSample 0 pdSample) [] h1 h4 h5).1

/-! ### ThemeAnalyzer (theme_analyzer.py lines 18-24, 31-173) -/

/-- Module-level `GOVERNANCE_CONTEXT` of theme_analyzer.py. -/
def governanceContextTheme : String :=
  "\nYou are the Sport Wales goverance team partner reviewer. Your goal is to will be review and anaylye the partner\x27s performance.\nThe Sport Wales Governance Team is central to upholding the integrity, effectiveness, \nand ethical standards of Sport Wales\x27 funded partnerships and organizations known as partners. The team \nensures funded partners operate under robust governance frameworks that align with Sport \nWales\x27 values of accountability, transparency, and continuous improvement. Goal is to review our partners performance.\n"

/-- The parsed model response of `analyze_theme` (`ThemeAnalysisSchema`). -/
structure ThemeAnalysis where
  themes : List String
  keywords : List String
  deriving DecidableEq, Repr

/-- The dict cached and returned by `analyze_practice`. -/
structure ThemeResult where
  practice_id : Nat
  themes : List String
  keywords : List String
  duration : Nat
  deriving DecidableEq, Repr

/-- `ThemeAnalyzer` instance state: `known_themes` (a Python set),
`theme_frequency` (a `Counter`, i.e. an insertion-ordered dict of counts),
and `_cache`. -/
structure ThemeState where
  known_themes : Finset String
  theme_frequency : List (String × Nat)
  cache : List (String × ThemeResult)

/-- `Counter[t] += 1` (inserting at the end on first sight). -/
def counterIncr (c : List (String × Nat)) (t : String) : List (String × Nat) :=
  match alookup c t with
  | some n => c.map (fun p => if p.1 = t then (t, n + 1) else p)
  | none => c ++ [(t, 1)]

/-- `Counter.update(ts)`. -/
def counterUpdate (c : List (String × Nat)) (ts : List String) : List (String × Nat) :=
  ts.foldl counterIncr c

/-- `Counter[t]` (0 when absent). -/
def counterGet (c : List (String × Nat)) (t : String) : Nat := (alookup c t).getD 0

/-- `Counter.most_common(n)`: entries stably sorted by descending count,
truncated to `n`, keys only. -/
def mostCommon (c : List (String × Nat)) (n : Nat) : List String :=
  ((List.insertionSort (fun a b => b.2 ≤ a.2) c).take n).map Prod.fst

/-- Python `str(set_of_strings)` as interpolated into the theme prompt
(the braces are `\x7b`/`\x7d`, quotes `\x27`; our list model fixes the
iteration order that a real Python set leaves unspecified). -/
def formatPySet (xs : List String) : String :=
  match xs with
  | [] => "set()"
  | _ => "\x7b" ++ String.intercalate ", " (xs.map (fun x => "\x27" ++ x ++ "\x27")) ++ "\x7d"

/-- `ThemeAnalyzer._construct_theme_prompt`.  The source computes
`top_themes = [t for t, _ in self.theme_frequency.most_common(5)]` and then
builds the f-string WITHOUT interpolating it (only `all_themes` /
`all_keywords` appear), which the `let` below mirrors. -/
def themeConstructPrompt (s : ThemeState) (practice : Finding)
    (summary : DocumentSummary) (all_themes all_keywords : List String) : String :=
  let top_themes := mostCommon s.theme_frequency 5
  "\n\n        # Context: " ++ governanceContextTheme ++ " \n####\n        \n        # Partner Name: " ++
  summary.sport_name ++ "\n        Partner " ++ summary.sport_name ++ "  Background:\n        " ++
  summary.summary ++ "\n\n\n        Below is one of the practise from the Partner Report for " ++
  summary.sport_name ++ " partner. \n        This section  of text contains the best practices and concerns identified by the Sport Wales Governance Team.\n        Pracitce Text: " ++
  practice.text ++ " \n \n        Context: " ++ practice.context ++ " \n\n        Impact: " ++
  practice.impact ++ " \n\n\n        Below are some common themes found in OTHER partner reports:\n        Common Themes: " ++
  formatPySet all_themes ++ "\n        Common Keywords: " ++ formatPySet all_keywords ++
  "\n\n        \n        \n        Task: Analyze this practice text to identify:\n        1. Key governance themes (max 3) - Consider using existing themes if relevant as they are consistent across partner reports\n        2. Specific keywords (max 5) that capture the core concept, consider using existing keywords if relevant\n        \n        Ensure themes are consistent and keywords are specific.\n\n        return is a json format\n        "

/-- `ThemeAnalyzer._get_cache_key`: `f"{practice.id}:{practice.extraction_time}"`. -/
def themeCacheKey (practice : Finding) : String :=
  toString practice.id ++ ":" ++ toString practice.extraction_time

/-- The post-insert eviction of `analyze_practice`:
`if len(self._cache) > 1000: self._cache.pop(next(iter(self._cache)))`. -/
def themeCachePutEvict (c : List (String × ThemeResult)) : List (String × ThemeResult) :=
  if 1000 < c.length then
    match c with
    | [] => []
    | _ :: t => t
  else c

/-- Return value of `analyze_practice`: the cached result dict on a hit,
otherwise the updated practice record. -/
inductive ThemeReturn where
  | cached (r : ThemeResult)
  | analyzed (p : Finding)

/-- `ThemeAnalyzer.analyze_practice` (async body flattened; `llm` is the
black-box classification call, `analysis_time` the elapsed wall clock). -/
def ThemeAnalyzer.analyze_practice
    (llm : String → ThemeAnalysis) (analysis_time : Nat)
    (s : ThemeState) (practice : Finding) (summary : DocumentSummary)
    (all_themes all_keywords : List String) : ThemeReturn × ThemeState :=
  let cache_key := themeCacheKey practice
  match alookup s.cache cache_key with
  | some r => (.cached r, s)
  | none =>
    let analysis := llm (themeConstructPrompt s practice summary all_themes all_keywords)
    let known_themes2 := s.known_themes ∪ analysis.themes.toFinset
    let freq2 := counterUpdate s.theme_frequency analysis.themes
    let practice2 := { practice with
      themes := analysis.themes
      keywords := analysis.keywords
      analysis_time := analysis_time }
    let result : ThemeResult :=
      { practice_id := practice.id, themes := analysis.themes,
        keywords := analysis.keywords, duration := analysis_time }
    let cache2 := themeCachePutEvict (dictInsert s.cache cache_key result)
    (.analyzed practice2, ⟨known_themes2, freq2, cache2⟩)

/-- One `analyze_practice` invocation's inputs. -/
structure ThemeCall where
  llm : String → ThemeAnalysis
  practice : Finding
  summary : DocumentSummary
  all_themes : List String
  all_keywords : List String
  analysis_time : Nat

/-- The state transformation of one `analyze_practice` call. -/
def themeStep (s : ThemeState) (c : ThemeCall) : ThemeState :=
  (ThemeAnalyzer.analyze_practice c.llm c.analysis_time s c.practice c.summary
    c.all_themes c.all_keywords).2

/-! Counter monotonicity. -/

lemma alookup_append {K V : Type} [DecidableEq K] (c l : List (K × V)) (k : K) :
    alookup (c ++ l) k =
      match alookup c k with
      | some v => some v
      | none => alookup l k := by
  induction c with
  | nil => rfl
  | cons p t ih =>
    obtain ⟨k', w'⟩ := p
    rw [List.cons_append, alookup_cons, alookup_cons]
    by_cases hk : k = k'
    · rw [if_pos hk, if_pos hk]
    · rw [if_neg hk, if_neg hk, ih]

lemma alookup_map_bump_ne {K V : Type} [DecidableEq K]
    (c : List (K × V)) (u : K) (v : V) (t : K) (ht : t ≠ u) :
    alookup (c.map (fun p => if p.1 = u then (u, v) else p)) t = alookup c t := by
  induction c with
  | nil => rfl
  | cons p l ih =>
    obtain ⟨k', w'⟩ := p
    rw [List.map_cons]
    by_cases hk : k' = u
    · have : ((k', w') : K × V).1 = u := hk
      rw [if_pos this, alookup_cons, alookup_cons, if_neg ht,
        if_neg (fun hc => ht (hc.trans hk)), ih]
    · have : ¬ ((k', w') : K × V).1 = u := hk
      rw [if_neg this, alookup_cons, alookup_cons]
      by_cases h2 : t = k'
      · rw [if_pos h2, if_pos h2]
      · rw [if_neg h2, if_neg h2, ih]

lemma forall_of_alookup_eq_none {K V : Type} [DecidableEq K]
    (l : List (K × V)) (k : K) (h : alookup l k = none) :
    ∀ p ∈ l, p.1 ≠ k := by
  induction l with
  | nil => intro p hp; simp at hp
  | cons q t ih =>
    obtain ⟨k', w'⟩ := q
    rw [alookup_cons] at h
    by_cases hk : k = k'
    · rw [if_pos hk] at h; exact absurd h (by simp)
    · rw [if_neg hk] at h
      intro p hp
      rcases List.mem_cons.mp hp with h1 | h1
      · rw [h1]; exact fun hc => hk hc.symm
      · exact ih h p h1

lemma counterGet_incr_mono (c : List (String × Nat)) (u t : String) :
    counterGet c t ≤ counterGet (counterIncr c u) t := by
  unfold counterIncr
  cases h : alookup c u with
  | none =>
    unfold counterGet
    rw [alookup_append]
    cases h2 : alookup c t <;> simp
  | some n =>
    by_cases ht : t = u
    · subst ht
      unfold counterGet
      rw [alookup_map_update c t (n + 1) n h, h]
      simp
    · unfold counterGet
      rw [alookup_map_bump_ne c u (n + 1) t ht]

lemma counterGet_update_mono (ts : List String) (c : List (String × Nat)) (t : String) :
    counterGet c t ≤ counterGet (counterUpdate c ts) t := by
  induction ts generalizing c with
  | nil => exact le_rfl
  | cons u us ih =>
    unfold counterUpdate at *
    rw [List.foldl_cons]
    exact le_trans (counterGet_incr_mono c u t) (ih (counterIncr c u))

lemma themeStep_known_mono (s : ThemeState) (c : ThemeCall) :
    s.known_themes ⊆ (themeStep s c).known_themes := by
  unfold themeStep ThemeAnalyzer.analyze_practice
  cases h : alookup s.cache (themeCacheKey c.practice) with
  | some r => simp [h]
  | none => simp [h]

lemma themeStep_freq_mono (s : ThemeState) (c : ThemeCall) (t : String) :
    counterGet s.theme_frequency t ≤ counterGet (themeStep s c).theme_frequency t := by
  unfold themeStep ThemeAnalyzer.analyze_practice
  cases h : alookup s.cache (themeCacheKey c.practice) with
  | some r => simp [h]
  | none =>
    simp only [h]
    exact counterGet_update_mono _ _ _

/-- C8: across any sequence of `analyze_practice` calls the known-themes
set only grows and every theme's frequency count never decreases (no call
deletes or merges themes). -/
theorem C8_theme_vocabulary_monotone (calls : List ThemeCall) (s : ThemeState) :
    (s.known_themes ⊆ (calls.foldl themeStep s).known_themes) ∧
    (∀ t, counterGet s.theme_frequency t ≤
      counterGet ((calls.foldl themeStep s).theme_frequency) t) := by
  induction calls generalizing s with
  | nil => exact ⟨Finset.Subset.refl _, fun t => le_rfl⟩
  | cons c cs ih =>
    rw [List.foldl_cons]
    exact ⟨(themeStep_known_mono s c).trans (ih (themeStep s c)).1,
           fun t => le_trans (themeStep_freq_mono s c t) ((ih (themeStep s c)).2 t)⟩

/-- A `ThemeAnalyzer` state whose frequency counter is dominated by a
sentinel theme that occurs nowhere else. -/
def c9State : ThemeState := ⟨∅, [("Zebra Governance", 7)], []⟩

/-- C9 (refutation): the classification prompt does not depend on the
frequency counter at all — `top_themes = most_common(5)` is computed and
then dropped — and concretely, with `"Zebra Governance"` the (unique, thus
top-1) most frequent theme, the constructed prompt does not contain it. -/
theorem C9_top_themes_absent_from_prompt :
    (∀ (s1 s2 : ThemeState) (p : Finding) (su : DocumentSummary)
       (ats aks : List String),
       themeConstructPrompt s1 p su ats aks = themeConstructPrompt s2 p su ats aks) ∧
    mostCommon c9State.theme_frequency 5 = ["Zebra Governance"] ∧
    strContainsSub (themeConstructPrompt c9State findingSample summarySample [] [])
      "Zebra Governance" = false := by
  refine ⟨fun s1 s2 p su ats aks => rfl, by decide, by decide⟩

/-! ### C3: boundedness of the two result caches -/

/-- Concrete CPython-style hash for the counterexample run: the text
length (injective on the chunk family below). -/
def c3Hash : String → Int := fun t => (t.data.length : Int)

/-- Extraction stub: criteria always met, one practice returned. -/
def c3LLM : String → ChunkAnalysis := fun _ => ⟨true, [pdSample], []⟩

/-- The `i`-th chunk of the counterexample run: `i` copies of `'a'`. -/
def c3Chunk (i : Nat) : Chunk :=
  { text := String.mk (List.replicate i 'a'), word_count := 1, page_number := 1,
    position := i, document_id := 1 }

/-- One `process_chunk` call of the counterexample run. -/
def c3Step (s : BPEState) (i : Nat) : BPEState :=
  (BestPracticeExtractor.process_chunk c3Hash c3LLM 0 0 s (c3Chunk i) summarySample).2

lemma c3_fold_cache (n : Nat) :
    ((List.range n).foldl c3Step ⟨[]⟩).cache =
      (List.range n).map (fun i : Nat => ((i : Int), mkBestPractice 0 (c3Chunk i) 0 pdSample)) := by
  induction n with
  | zero => rfl
  | succ n ih =>
    rw [List.range_succ, List.foldl_append, List.foldl_cons, List.foldl_nil]
    have hkey : c3Hash (c3Chunk n).text = (n : Int) := by
      simp [c3Hash, c3Chunk]
    have hmiss : alookup ((List.range n).foldl c3Step ⟨[]⟩).cache
        (c3Hash (c3Chunk n).text) = none := by
      rw [ih, hkey]
      apply alookup_eq_none_of_forall
      intro p hp
      obtain ⟨i, hi, hpi⟩ := List.mem_map.mp hp
      rw [← hpi]
      have hin : i < n := List.mem_range.mp hi
      intro hcon
      have : (i : Int) = (n : Int) := hcon
      omega
    have hcrit : (c3LLM (bpeConstructPrompt (c3Chunk n).text
        summarySample)).criteria_met = true := rfl
    have hfr : (c3LLM (bpeConstructPrompt (c3Chunk n).text
          summarySample)).practices.enum.map
        (fun p => mkBestPractice (0 + p.1) (c3Chunk n) 0 p.2) =
        mkBestPractice 0 (c3Chunk n) 0 pdSample :: [] := rfl
    show (BestPracticeExtractor.process_chunk c3Hash c3LLM 0 0
        ((List.range n).foldl c3Step ⟨[]⟩) (c3Chunk n) summarySample).2.cache = _
    rw [process_chunk_found c3Hash c3LLM 0 0 _ (c3Chunk n) summarySample _ []
      hmiss hcrit hfr]
    show dictInsert _ (c3Hash (c3Chunk n).text) (pyMaxByConfidence _ []) = _
    rw [dictInsert_of_none _ _ _ hmiss, ih, hkey]
    rw [List.map_append]
    rfl

/-- C3 counterexample: the extraction-result cache of
`BestPracticeExtractor` is NOT bounded at 1000 entries — after 1001
successful `process_chunk` calls on chunks with 1001 distinct cache keys
the cache holds 1001 entries (not 1000), and the first-inserted key is
still present (nothing was evicted). -/
theorem C3_extraction_cache_unbounded_counterexample :
    ((List.range 1001).foldl c3Step ⟨[]⟩).cache.length = 1001 ∧
    ((List.range 1001).foldl c3Step ⟨[]⟩).cache.length ≠ 1000 ∧
    (alookup ((List.range 1001).foldl c3Step ⟨[]⟩).cache ((0 : Nat) : Int)).isSome := by
  rw [c3_fold_cache 1001]
  refine ⟨by simp, by simp, ?_⟩
  apply alookup_isSome_of_mem
  exact ⟨(((0 : Nat) : Int), mkBestPractice 0 (c3Chunk 0) 0 pdSample),
    List.mem_map.mpr ⟨0, List.mem_range.mpr (by omega), rfl⟩, rfl⟩

/-- C3 (amended): only the theme-result cache is bounded.  A cache-miss
`analyze_practice` call appends its entry; when the cache already holds
1000 entries the insertion (transiently 1001) evicts exactly the oldest
(first-inserted) entry, leaving 1000 entries with the evicted key gone
(given the dict invariant that stored keys are distinct). -/
theorem C3_theme_cache_bounded_amended
    (llm : String → ThemeAnalysis) (analysis_time : Nat) (s : ThemeState)
    (practice : Finding) (summary : DocumentSummary)
    (all_themes all_keywords : List String)
    (hmiss : alookup s.cache (themeCacheKey practice) = none) :
    (s.cache.length < 1000 →
      ∃ v, (ThemeAnalyzer.analyze_practice llm analysis_time s practice summary
          all_themes all_keywords).2.cache =
        s.cache ++ [(themeCacheKey practice, v)]) ∧
    (s.cache.length = 1000 →
      ∃ v, (ThemeAnalyzer.analyze_practice llm analysis_time s practice summary
          all_themes all_keywords).2.cache =
          s.cache.tail ++ [(themeCacheKey practice, v)] ∧
        (ThemeAnalyzer.analyze_practice llm analysis_time s practice summary
          all_themes all_keywords).2.cache.length = 1000 ∧
        (∀ k0, (s.cache.map Prod.fst).head? = some k0 →
          (s.cache.map Prod.fst).Nodup →
          alookup (ThemeAnalyzer.analyze_practice llm analysis_time s practice
            summary all_themes all_keywords).2.cache k0 = none)) := by
  obtain ⟨w, hcache⟩ : ∃ w, (ThemeAnalyzer.analyze_practice llm analysis_time s
      practice summary all_themes all_keywords).2.cache =
      themeCachePutEvict (s.cache ++ [(themeCacheKey practice, w)]) := by
    refine ⟨{ practice_id := practice.id
              themes := (llm (themeConstructPrompt s practice summary all_themes
                all_keywords)).themes
              keywords := (llm (themeConstructPrompt s practice summary all_themes
                all_keywords)).keywords
              duration := analysis_time }, ?_⟩
    simp only [ThemeAnalyzer.analyze_practice, hmiss]
    rw [dictInsert_of_none _ _ _ hmiss]
  have hevict_le : ∀ (l : List (String × ThemeResult)), l.length ≤ 1000 →
      themeCachePutEvict l = l := by
    intro l h
    unfold themeCachePutEvict
    rw [if_neg (by omega)]
  have hevict_gt : ∀ (p : String × ThemeResult) (l : List (String × ThemeResult)),
      1000 < (p :: l).length → themeCachePutEvict (p :: l) = l := by
    intro p l h
    unfold themeCachePutEvict
    rw [if_pos h]
  constructor
  · intro hlt
    refine ⟨w, ?_⟩
    rw [hcache, hevict_le _ (by simp only [List.length_append,
      List.length_cons, List.length_nil]; omega)]
  · intro hlen
    obtain ⟨p0, t0, hs⟩ : ∃ p0 t0, s.cache = p0 :: t0 := by
      cases hc : s.cache with
      | nil => rw [hc] at hlen; simp at hlen
      | cons a l => exact ⟨a, l, rfl⟩
    have ht0 : t0.length = 999 := by
      rw [hs] at hlen; simp at hlen; omega
    have hsplit : s.cache ++ [(themeCacheKey practice, w)] =
        p0 :: (t0 ++ [(themeCacheKey practice, w)]) := by
      rw [hs, List.cons_append]
    have hres : (ThemeAnalyzer.analyze_practice llm analysis_time s practice
        summary all_themes all_keywords).2.cache =
        t0 ++ [(themeCacheKey practice, w)] := by
      rw [hcache, hsplit, hevict_gt _ _ (by simp only [List.length_cons,
        List.length_append, List.length_nil, ht0]; omega)]
    refine ⟨w, ?_, ?_, ?_⟩
    · rw [hres, hs]
      rfl
    · rw [hres]
      simp [ht0]
    · intro k0 hk0 hnodup
      have hk0' : k0 = p0.1 := by
        rw [hs, List.map_cons, List.head?_cons] at hk0
        exact (Option.some.inj hk0).symm
      subst hk0'
      rw [hres, alookup_append]
      have h1 : alookup t0 p0.1 = none := by
        apply alookup_eq_none_of_forall
        intro p hp
        rw [hs, List.map_cons] at hnodup
        intro hc
        exact (List.nodup_cons.mp hnodup).1 (hc ▸ List.mem_map_of_mem Prod.fst hp)
      rw [h1]
      have h2 : p0.1 ≠ themeCacheKey practice :=
        forall_of_alookup_eq_none s.cache (themeCacheKey practice) hmiss p0
          (by rw [hs]; exact List.mem_cons_self _ _)
      show alookup [(themeCacheKey practice, w)] p0.1 = none
      rw [alookup_cons, if_neg h2]
      rfl

/-- A stored theme result for the witness cache. -/
def trSample : ThemeResult := ⟨0, [], [], 0⟩

/-- Classification stub for the witness. -/
def themeLLMSample : String → ThemeAnalysis :=
  fun _ => ⟨["Transparent Governance"], ["governance"]⟩

/-- A theme-analyzer state whose cache holds exactly 1000 entries with
pairwise-distinct keys (the key of entry `i` is `i` copies of `'a'`). -/
def s1000 : ThemeState :=
  ⟨∅, [], (List.range 1000).map
    (fun i : Nat => (String.mk (List.replicate i 'a'), trSample))⟩

lemma s1000_key_ne (i : Nat) : String.mk (List.replicate i 'a') ≠ themeCacheKey findingSample := by
  have hk : themeCacheKey findingSample = "3:0" := rfl
  rw [hk]
  intro h
  have hd : List.replicate i 'a' = "3:0".data := congrArg String.data h
  have hl : i = 3 := by simpa using congrArg List.length hd
  subst hl
  exact absurd hd (by decide)

lemma s1000_miss : alookup s1000.cache (themeCacheKey findingSample) = none := by
  apply alookup_eq_none_of_forall
  intro p hp
  obtain ⟨i, hi, hpi⟩ := List.mem_map.mp hp
  rw [← hpi]
  exact s1000_key_ne i

lemma s1000_len : s1000.cache.length = 1000 := by
  simp [s1000]

lemma s1000_cache_eq : s1000.cache = (List.range 1000).map
    (fun i : Nat => (String.mk (List.replicate i 'a'), trSample)) := rfl

lemma s1000_nodup : (s1000.cache.map Prod.fst).Nodup := by
  rw [s1000_cache_eq, List.map_map]
  refine List.Nodup.map ?_ (List.nodup_range 1000)
  intro a b hab
  have hd := congrArg String.data hab
  simpa using congrArg List.length hd

lemma s1000_head : (s1000.cache.map Prod.fst).head? = some "" := by
  rw [s1000_cache_eq, show (1000 : Nat) = 999 + 1 from rfl, List.range_succ_eq_map]
  rfl

/-- Witness for the amended C3 theorem: a concrete 1000-entry cache, a
fresh key, and the resulting eviction of the oldest entry. -/
theorem C3_theme_cache_bounded_amended_witness :
    (alookup s1000.cache (themeCacheKey findingSample) = none ∧
     s1000.cache.length = 1000 ∧
     (s1000.cache.map Prod.fst).head? = some "" ∧
     (s1000.cache.map Prod.fst).Nodup) ∧
    (∃ v, (ThemeAnalyzer.analyze_practice themeLLMSample 0 s1000 findingSample
        summarySample [] []).2.cache =
        s1000.cache.tail ++ [(themeCacheKey findingSample, v)] ∧
      (ThemeAnalyzer.analyze_practice themeLLMSample 0 s1000 findingSample
        summarySample [] []).2.cache.length = 1000 ∧
      (∀ k0, (s1000.cache.map Prod.fst).head? = some k0 →
        (s1000.cache.map Prod.fst).Nodup →
        alookup (ThemeAnalyzer.analyze_practice themeLLMSample 0 s1000
          findingSample summarySample [] []).2.cache k0 = none)) :=
  ⟨⟨s1000_miss, s1000_len, s1000_head, s1000_nodup⟩,
   (C3_theme_cache_bounded_amended themeLLMSample 0 s1000 findingSample
     summarySample [] [] s1000_miss).2 s1000_len⟩

/-! ### VectorStore embedding cache with TTL (vector_store.py lines 12-114) -/

/-- `VectorStore._clean_text`: `' '.join(text.split())`. -/
def cleanText (text : String) : String := joinWords (pyWords text)

/-- `self._cache_ttl = timedelta(hours=24)`, in seconds. -/
def vsCacheTTL : Nat := 24 * 60 * 60

/-- One value of `self._embedding_cache`:
`{'embedding': ..., 'expires': ...}`. -/
structure CacheEntry where
  embedding : List ℚ
  expires : Nat
  deriving DecidableEq, Repr

/-- The `VectorStore` instance state. -/
structure VSState where
  embedding_cache : List (Int × CacheEntry)
  deriving DecidableEq, Repr

/-- The `while len(self._embedding_cache) > 1000: pop(next(iter(...)))`
loop of `_clean_cache`. -/
def evictOldestLoop : List (Int × CacheEntry) → List (Int × CacheEntry)
  | [] => []
  | x :: t => if 1000 < (x :: t).length then evictOldestLoop t else x :: t

/-- `VectorStore._clean_cache`: drop all expired entries
(`v['expires'] > now` kept), then evict oldest while above 1000. -/
def cleanCache (now : Nat) (c : List (Int × CacheEntry)) : List (Int × CacheEntry) :=
  evictOldestLoop (c.filter (fun p => now < p.2.expires))

/-- `VectorStore.generate_embedding`: serve from cache only when the entry
exists and is unexpired; otherwise embed the cleaned text, store it with a
fresh 24h expiry, and clean the cache when its size exceeds 1000. -/
def VectorStore.generate_embedding (hash : String → Int)
    (embedFn : String → List ℚ) (now : Nat) (s : VSState) (text : String) :
    List ℚ × VSState :=
  let cache_key := hash text
  let recompute : List ℚ × VSState :=
    let embedding := embedFn (cleanText text)
    let c1 := dictInsert s.embedding_cache cache_key
      ⟨embedding, now + vsCacheTTL⟩
    let c2 := if 1000 < c1.length then cleanCache now c1 else c1
    (embedding, ⟨c2⟩)
  match alookup s.embedding_cache cache_key with
  | some entry =>
    if now < entry.expires then (entry.embedding, s) else recompute
  | none => recompute

lemma evictOldestLoop_eq_drop (l : List (Int × CacheEntry)) :
    evictOldestLoop l = l.drop (l.length - 1000) := by
  induction l with
  | nil => rfl
  | cons x t ih =>
    unfold evictOldestLoop
    by_cases h : 1000 < (x :: t).length
    · rw [if_pos h, ih]
      have h1 : (x :: t).length - 1000 = (t.length - 1000) + 1 := by
        simp at h ⊢; omega
      rw [h1, List.drop_succ_cons]
    · rw [if_neg h]
      have h1 : (x :: t).length - 1000 = 0 := by simp at h ⊢; omega
      rw [h1, List.drop_zero]

lemma evictOldestLoop_le (l : List (Int × CacheEntry)) :
    (evictOldestLoop l).length ≤ 1000 := by
  rw [evictOldestLoop_eq_drop, List.length_drop]
  omega

lemma evictOldestLoop_subset (l : List (Int × CacheEntry)) :
    ∀ p ∈ evictOldestLoop l, p ∈ l := by
  rw [evictOldestLoop_eq_drop]
  intro p hp
  exact List.mem_of_mem_drop hp

/-- C6: a cache read whose entry's TTL has elapsed is a miss (the
embedding is recomputed from the cleaned text, not served), and when an
insertion pushes the cache over 1000 entries the sweep keeps no expired
entry, ends at or under 1000 entries, and evicts beyond that exactly the
oldest entries (the result is the expired-filtered dict with its
oldest surplus dropped). -/
theorem C6_embedding_ttl_cache (hash : String → Int)
    (embedFn : String → List ℚ) (now : Nat) (s : VSState) (text : String) :
    (∀ entry, alookup s.embedding_cache (hash text) = some entry →
      ¬ (now < entry.expires) →
      (VectorStore.generate_embedding hash embedFn now s text).1 =
        embedFn (cleanText text)) ∧
    (alookup s.embedding_cache (hash text) = none →
      1000 < (dictInsert s.embedding_cache (hash text)
        ⟨embedFn (cleanText text), now + vsCacheTTL⟩).length →
      ((∀ p ∈ (VectorStore.generate_embedding hash embedFn now s
          text).2.embedding_cache, now < p.2.expires) ∧
       (VectorStore.generate_embedding hash embedFn now s
          text).2.embedding_cache.length ≤ 1000 ∧
       (VectorStore.generate_embedding hash embedFn now s
          text).2.embedding_cache =
         (((dictInsert s.embedding_cache (hash text)
             ⟨embedFn (cleanText text), now + vsCacheTTL⟩).filter
            (fun p => now < p.2.expires)).drop
          (((dictInsert s.embedding_cache (hash text)
              ⟨embedFn (cleanText text), now + vsCacheTTL⟩).filter
             (fun p => now < p.2.expires)).length - 1000)))) := by
  constructor
  · intro entry hsome hexp
    simp [VectorStore.generate_embedding, hsome, hexp]
  · intro hnone hover
    have heq : (VectorStore.generate_embedding hash embedFn now s
        text).2.embedding_cache =
        cleanCache now (dictInsert s.embedding_cache (hash text)
          ⟨embedFn (cleanText text), now + vsCacheTTL⟩) := by
      simp [VectorStore.generate_embedding, hnone, hover]
    rw [heq]
    unfold cleanCache
    refine ⟨?_, ?_, evictOldestLoop_eq_drop _⟩
    · intro p hp
      have hmem := evictOldestLoop_subset _ p hp
      exact of_decide_eq_true (List.mem_filter.mp hmem).2
    · exact evictOldestLoop_le _

/-- One-entry cache whose entry expires at time 5. -/
def vsSmall : VSState := ⟨[((0 : Int), ⟨[], 5⟩)]⟩

/-- A 1001-entry cache of unexpired entries with keys `0..1000`. -/
def vsBig : VSState :=
  ⟨(List.range 1001).map (fun i : Nat => ((i : Int), ⟨[], 10⟩))⟩

lemma vsBig_none :
    alookup vsBig.embedding_cache ((fun _ => (5000 : Int)) "q") = none := by
  apply alookup_eq_none_of_forall
  intro p hp
  obtain ⟨i, hi, hpi⟩ := List.mem_map.mp hp
  rw [← hpi]
  have hlt : i < 1001 := List.mem_range.mp hi
  intro hcon
  have : (i : Int) = 5000 := hcon
  omega

lemma vsBig_over :
    1000 < (dictInsert vsBig.embedding_cache ((fun _ => (5000 : Int)) "q")
      ⟨(fun _ => ([] : List ℚ)) (cleanText "q"), 0 + vsCacheTTL⟩).length := by
  rw [dictInsert_of_none _ _ _ vsBig_none]
  simp [vsBig]

/-- Witness for C6: a concrete expired entry read at its expiry time, and
a concrete overflowing insertion into a 1001-entry cache. -/
theorem C6_embedding_ttl_cache_witness :
    (alookup vsSmall.embedding_cache ((fun _ => (0 : Int)) "q") =
        some ⟨[], 5⟩ ∧
     ¬ ((5 : Nat) < (CacheEntry.mk [] 5).expires) ∧
     (VectorStore.generate_embedding (fun _ => (0 : Int))
        (fun _ => ([] : List ℚ)) 5 vsSmall "q").1 =
       (fun _ => ([] : List ℚ)) (cleanText "q")) ∧
    (alookup vsBig.embedding_cache ((fun _ => (5000 : Int)) "q") = none ∧
     1000 < (dictInsert vsBig.embedding_cache ((fun _ => (5000 : Int)) "q")
       ⟨(fun _ => ([] : List ℚ)) (cleanText "q"), 0 + vsCacheTTL⟩).length ∧
     ((∀ p ∈ (VectorStore.generate_embedding (fun _ => (5000 : Int))
         (fun _ => ([] : List ℚ)) 0 vsBig "q").2.embedding_cache,
         0 < p.2.expires) ∧
      (VectorStore.generate_embedding (fun _ => (5000 : Int))
        (fun _ => ([] : List ℚ)) 0 vsBig "q").2.embedding_cache.length ≤ 1000)) := by
  have hsome : alookup vsSmall.embedding_cache ((fun _ => (0 : Int)) "q") =
      some ⟨[], 5⟩ := rfl
  have hexp : ¬ ((5 : Nat) < (CacheEntry.mk [] 5).expires) := by decide
  refine ⟨⟨hsome, hexp, ?_⟩, ⟨vsBig_none, vsBig_over, ?_⟩⟩
  · exact (C6_embedding_ttl_cache (fun _ => (0 : Int)) (fun _ => ([] : List ℚ))
      5 vsSmall "q").1 ⟨[], 5⟩ hsome hexp
  · have h := (C6_embedding_ttl_cache (fun _ => (5000 : Int))
      (fun _ => ([] : List ℚ)) 0 vsBig "q").2 vsBig_none vsBig_over
    exact ⟨h.1, h.2.1⟩

/-! ### Similarity search
(`VectorStore.find_similar`, vector_store.py lines 151-197, and
`VectorService._perform_search`, src/vector_store/services.py lines
72-135).  The database distance annotations (`L2Distance`,
`CosineDistance` against the query embedding) are the per-row functions
`distance` / `similarity`; Python's stable sort is modelled by the stable
`List.insertionSort`. -/

/-- `VectorStore.find_similar` query semantics:
`filter(distance <= threshold).order_by('distance')[:limit]`. -/
def VectorStore.find_similar (practices : List Finding)
    (distance : Finding → ℚ) (limit : Nat) (threshold : ℚ) : List Finding :=
  ((List.insertionSort (fun a b => distance a ≤ distance b)
    (practices.filter (fun p => decide (distance p ≤ threshold)))).take limit)

/-- A `VectorDocument` row. -/
structure VectorDoc where
  id : Nat
  contents : String
  metadata : List (String × String)
  created_at : Nat
  deriving DecidableEq, Repr

/-- `metadata_filters` may be absent, a bare category string, or a dict
(Python-falsy values skip filtering, as in the source). -/
inductive MetadataFilters where
  | noFilter
  | byCategory (category : String)
  | byPairs (kvs : List (String × String))

/-- The metadata post-filter of `_perform_search`. -/
def applyMetadataFilters (mf : MetadataFilters) (results : List VectorDoc) :
    List VectorDoc :=
  match mf with
  | .noFilter => results
  | .byCategory c =>
    if c = "" then results
    else results.filter (fun r => alookup r.metadata "category" == some c)
  | .byPairs kvs =>
    if kvs = [] then results
    else results.filter (fun r =>
      kvs.all (fun kv => alookup r.metadata kv.1 == some kv.2))

/-- The time-range post-filter of `_perform_search`
(`start_date <= r.created_at <= end_date`). -/
def applyTimeRange (tr : Option (Nat × Nat)) (results : List VectorDoc) :
    List VectorDoc :=
  match tr with
  | none => results
  | some (start_date, end_date) =>
    results.filter (fun r =>
      decide (start_date ≤ r.created_at) && decide (r.created_at ≤ end_date))

/-- `VectorService._perform_search`: sort all documents by ascending
cosine distance, apply the metadata and time filters, truncate to
`limit`.  The `threshold` parameter is accepted and never used, exactly
as in the source. -/
def VectorService.perform_search (docs : List VectorDoc)
    (similarity : VectorDoc → ℚ) (limit : Nat) (metadata_filters : MetadataFilters)
    (time_range : Option (Nat × Nat)) (threshold : ℚ) : List VectorDoc :=
  let results := List.insertionSort (fun a b => similarity a ≤ similarity b) docs
  let results := applyMetadataFilters metadata_filters results
  let results := applyTimeRange time_range results
  results.take limit

/-- A stored document at cosine distance 5 from the query. -/
def docSample : VectorDoc :=
  { id := 1, contents := "far away", metadata := [("category", "shipping")],
    created_at := 0 }

/-- C2: `find_similar` does return ascending-distance results, filtered by
the threshold and truncated to `limit`; but the generic vector search
ignores its `threshold` argument entirely (its result is the same for
every threshold), and concretely returns a document at distance 5 under
threshold 1 — refuting the claim for `VectorService`. -/
theorem C2_similarity_search_threshold :
    (∀ (practices : List Finding) (distance : Finding → ℚ) (limit : Nat)
       (threshold : ℚ),
      List.Pairwise (fun a b => distance a ≤ distance b)
        (VectorStore.find_similar practices distance limit threshold) ∧
      (∀ p ∈ VectorStore.find_similar practices distance limit threshold,
        distance p ≤ threshold) ∧
      (VectorStore.find_similar practices distance limit threshold).length ≤
        limit) ∧
    (∀ (docs : List VectorDoc) (similarity : VectorDoc → ℚ) (limit : Nat)
       (mf : MetadataFilters) (tr : Option (Nat × Nat)) (t1 t2 : ℚ),
      VectorService.perform_search docs similarity limit mf tr t1 =
      VectorService.perform_search docs similarity limit mf tr t2) ∧
    (VectorService.perform_search [docSample] (fun _ => 5) 5 .noFilter none 1 =
      [docSample] ∧ ¬ ((5 : ℚ) ≤ 1)) := by
  refine ⟨?_, fun docs similarity limit mf tr t1 t2 => rfl, ?_, by norm_num⟩
  · intro practices distance limit threshold
    haveI : IsTotal Finding (fun a b => distance a ≤ distance b) :=
      ⟨fun a b => le_total (distance a) (distance b)⟩
    haveI : IsTrans Finding (fun a b => distance a ≤ distance b) :=
      ⟨fun a b c hab hbc => le_trans hab hbc⟩
    refine ⟨?_, ?_, ?_⟩
    · exact List.Pairwise.sublist (List.take_sublist _ _)
        (List.sorted_insertionSort _ _)
    · intro p hp
      have h1 : p ∈ List.insertionSort (fun a b => distance a ≤ distance b)
          (practices.filter (fun p => decide (distance p ≤ threshold))) :=
        List.mem_of_mem_take hp
      have h2 : p ∈ practices.filter (fun p => decide (distance p ≤ threshold)) :=
        (List.perm_insertionSort _ _).mem_iff.mp h1
      exact of_decide_eq_true (List.mem_filter.mp h2).2
    · rw [VectorStore.find_similar, List.length_take]
      exact min_le_left _ _
  · rfl

/-! ### GovernanceDocumentProcessor.process_document
(document_processor.py lines 133-349) -/

/-- A `GovernanceDocument` row (the fields `process_document` touches). -/
structure GovernanceDocument where
  id : Nat
  pinata_id : String
  url : String
  filename : String
  mime_type : String
  file_size : Nat
  total_pages : Nat
  processed_status : String
  error_message : Option String
  deriving DecidableEq, Repr

/-- The `ValueError("Unsupported file type: ...")` raised by
`_process_document_pages` (the spec's `UnsupportedFormat`). -/
inductive PageExtractionError where
  | unsupportedFormat (mime_type : String)
  deriving DecidableEq, Repr

/-- `str(e)` of the raised error, as stored into `error_message`. -/
def pageErrorMessage : PageExtractionError → String
  | .unsupportedFormat m => "Unsupported file type: " ++ m

/-- `GovernanceDocumentProcessor._process_document_pages`: dispatch on the
MIME type to one of the three extractors (black boxes returning the
`(text, page_number)` list), else raise. -/
def process_document_pages
    (extractPdf extractDocx extractOdt : String → List (String × Nat))
    (file_path : String) (mime_type : String) :
    Except PageExtractionError (List (String × Nat)) :=
  if mime_type = "application/pdf" then
    .ok (extractPdf file_path)
  else if mime_type =
      "application/vnd.openxmlformats-officedocument.wordprocessingml.document" then
    .ok (extractDocx file_path)
  else if mime_type = "application/vnd.oasis.opendocument.text" then
    .ok (extractOdt file_path)
  else
    .error (.unsupportedFormat mime_type)

/-- The aggregated result dict of a successful `process_document` run. -/
structure ProcessResult where
  document_id : Nat
  total_chunks : Nat
  total_pages : Nat
  total_words : Nat
  deriving DecidableEq, Repr

/-- `GovernanceDocumentProcessor.process_document`, as the transformation
of the document row plus the returned-or-raised outcome.  `guessMime`
models `mimetypes.guess_type` (the source re-derives `mime_type` from the
FILENAME, overriding the request's `file_type`); page parsing and batched
chunk persistence keep the deterministic page order, so the chunk list is
the per-page concatenation of `TextChunker(1000, 200)` outputs over the
non-blank pages. -/
def GovernanceDocumentProcessor.process_document
    (guessMime : String → Option String)
    (extractPdf extractDocx extractOdt : String → List (String × Nat))
    (file_path : String) (doc : GovernanceDocument) :
    GovernanceDocument × Except PageExtractionError ProcessResult :=
  let doc := { doc with
    processed_status := "PROCESSING"
    file_size := doc.url.utf8ByteSize
    mime_type := (guessMime doc.filename).getD "application/octet-stream" }
  match process_document_pages extractPdf extractDocx extractOdt file_path
      doc.mime_type with
  | .error e =>
    ({ doc with
       processed_status := "FAILED"
       error_message := some (pageErrorMessage e) }, .error e)
  | .ok pages =>
    let doc := { doc with total_pages := pages.length }
    let chunker := TextChunker.init 1000 200
    let chunks := (pages.filter (fun p => p.1.trim ≠ "")).flatMap
      (fun p => chunker.split_text p.1)
    let total_words := (chunks.map (fun c => (pyWords c.text).length)).sum
    ({ doc with processed_status := "COMPLETED" },
     .ok { document_id := doc.id, total_chunks := chunks.length,
           total_pages := pages.length, total_words := total_words })

/-- C5: when the MIME type determined for the document is none of the
three supported ones, page extraction fails with the UnsupportedFormat
error and the run ends with `processed_status = "FAILED"` and a non-null
`error_message` carrying the error text. -/
theorem C5_unsupported_mime_fails
    (guessMime : String → Option String)
    (extractPdf extractDocx extractOdt : String → List (String × Nat))
    (file_path : String) (doc : GovernanceDocument)
    (hmime : (guessMime doc.filename).getD "application/octet-stream" ∉
      (["application/pdf",
        "application/vnd.openxmlformats-officedocument.wordprocessingml.document",
        "application/vnd.oasis.opendocument.text"] : List String)) :
    (GovernanceDocumentProcessor.process_document guessMime extractPdf
        extractDocx extractOdt file_path doc).2 =
      .error (.unsupportedFormat
        ((guessMime doc.filename).getD "application/octet-stream")) ∧
    (GovernanceDocumentProcessor.process_document guessMime extractPdf
        extractDocx extractOdt file_path doc).1.processed_status = "FAILED" ∧
    (GovernanceDocumentProcessor.process_document guessMime extractPdf
        extractDocx extractOdt file_path doc).1.error_message =
      some ("Unsupported file type: " ++
        (guessMime doc.filename).getD "application/octet-stream") ∧
    (GovernanceDocumentProcessor.process_document guessMime extractPdf
        extractDocx extractOdt file_path doc).1.error_message ≠ none := by
  simp only [List.mem_cons, List.mem_singleton, not_or] at hmime
  obtain ⟨h1, h2, h3, -⟩ := hmime
  have hpages : process_document_pages extractPdf extractDocx extractOdt
      file_path ((guessMime doc.filename).getD "application/octet-stream") =
      .error (.unsupportedFormat
        ((guessMime doc.filename).getD "application/octet-stream")) := by
    unfold process_document_pages
    rw [if_neg h1, if_neg h2, if_neg h3]
  simp [GovernanceDocumentProcessor.process_document, hpages, pageErrorMessage]

/-- Witness for C5: the request of the spec scenario — an Excel file
(`file_type "application/vnd.ms-excel"`, filename `report.xls`, so
`mimetypes.guess_type` also yields the Excel MIME type). -/
theorem C5_unsupported_mime_fails_witness :
    ((((fun _ => some "application/vnd.ms-excel") :
        String → Option String) "report.xls").getD "application/octet-stream" ∉
      (["application/pdf",
        "application/vnd.openxmlformats-officedocument.wordprocessingml.document",
        "application/vnd.oasis.opendocument.text"] : List String)) ∧
    (GovernanceDocumentProcessor.process_document
        (fun _ => some "application/vnd.ms-excel") (fun _ => []) (fun _ => [])
        (fun _ => []) "data/downloaded.xls"
        { id := 1, pinata_id := "p", url := "http://files/report.xls",
          filename := "report.xls",
          mime_type := "application/vnd.ms-excel", file_size := 0,
          total_pages := 0, processed_status := "PENDING",
          error_message := none }).1.processed_status = "FAILED" ∧
    (GovernanceDocumentProcessor.process_document
        (fun _ => some "application/vnd.ms-excel") (fun _ => []) (fun _ => [])
        (fun _ => []) "data/downloaded.xls"
        { id := 1, pinata_id := "p", url := "http://files/report.xls",
          filename := "report.xls",
          mime_type := "application/vnd.ms-excel", file_size := 0,
          total_pages := 0, processed_status := "PENDING",
          error_message := none }).1.error_message ≠ none := by
  have hmime : ((((fun _ => some "application/vnd.ms-excel") :
      String → Option String) "report.xls").getD "application/octet-stream" ∉
      (["application/pdf",
        "application/vnd.openxmlformats-officedocument.wordprocessingml.document",
        "application/vnd.oasis.opendocument.text"] : List String)) := by decide
  have h := C5_unsupported_mime_fails (fun _ => some "application/vnd.ms-excel")
    (fun _ => []) (fun _ => []) (fun _ => []) "data/downloaded.xls"
    { id := 1, pinata_id := "p", url := "http://files/report.xls",
      filename := "report.xls", mime_type := "application/vnd.ms-excel",
      file_size := 0, total_pages := 0, processed_status := "PENDING",
      error_message := none } hmime
  exact ⟨hmime, h.2.1, h.2.2.2⟩
